import Mathlib

/-!
Shallow embedding of the poll-until-condition engine of `thirtyfour_query`
(`src/src/waiter.rs`), together with the polling-strategy/ticker machinery it
drives.  Durations are modelled as natural numbers of abstract time units.
Predicate evaluation against the live browser is modelled by giving each
predicate the index of the current loop iteration (tick) as input: the result
of a predicate may change from one tick to the next, which is exactly the
amount of nondeterminism the waiter observes.  The driving loop may fail to
terminate for some strategies, so the loop is given explicit fuel and returns
`Option`: `none` means the fuel ran out before the loop returned.
-/

instance {ε α : Type} [DecidableEq ε] [DecidableEq α] : DecidableEq (Except ε α) := fun x y =>
  match x, y with
  | .ok a, .ok b =>
    if h : a = b then .isTrue (by rw [h]) else .isFalse (by simp [h])
  | .error e, .error f =>
    if h : e = f then .isTrue (by rw [h]) else .isFalse (by simp [h])
  | .ok _, .error _ => .isFalse (by simp)
  | .error _, .ok _ => .isFalse (by simp)

/-- Error type of the external `thirtyfour` crate (out of scope per the spec).
Only the `Timeout` constructor is produced by this crate (`waiter.rs` line 74);
every other error coming back from the remote end is abstracted as
`OtherError` with a numeric code. -/
inductive WebDriverError where
  | Timeout (message : String)
  | OtherError (code : Nat)
deriving DecidableEq

/-- Modelled from the spec: the `ElementPoller` enum lives in the repository's
`src/poller.rs`, which is not under `src/`.  The spec (section 3) gives the
variants `NoWait` (single attempt, no delay), `FixedCount { interval,
max_attempts }` (bounded retries with fixed spacing) and
`TimeoutWithInterval { timeout, interval }` (wall-clock deadline, polling at
fixed spacing); the `TimeoutWithInterval` constructor name is also visible in
`src/src/waiter.rs` line 49. -/
inductive ElementPoller where
  | NoWait
  | FixedCount (interval : Nat) (max_attempts : Nat)
  | TimeoutWithInterval (timeout : Nat) (interval : Nat)
deriving DecidableEq

/-- Modelled from the spec: the `ElementPollerTicker` struct lives in the
repository's `src/poller.rs`, which is not under `src/`.  Per spec section 3
a ticker holds its originating strategy, an attempt counter, and the time
elapsed since its creation (idealised: only the ticker's own sleeps advance
the clock, so `elapsed` is the total time slept so far). -/
structure ElementPollerTicker where
  poller : ElementPoller
  attempts : Nat
  elapsed : Nat
deriving DecidableEq

/-- Modelled from the spec: `ElementPollerTicker::new` creates a fresh cursor
on the schedule, with no attempts taken and no time elapsed. -/
def ElementPollerTicker.new (poller : ElementPoller) : ElementPollerTicker :=
  { poller := poller, attempts := 0, elapsed := 0 }

/-- Modelled from the spec: `ElementPollerTicker::tick` (spec section 4.1).
Returns whether the caller may perform another evaluation attempt, the time
slept during this call, and the updated ticker.
For `NoWait` the first tick (and, by monotonicity, every tick) returns false
with no sleep.  For `FixedCount` the ticker allows `max_attempts` additional
ticks, sleeping `interval` before each permitted one.  For
`TimeoutWithInterval` the ticker sleeps `interval`, then re-checks the elapsed
time against `timeout`, returning false once the deadline has passed. -/
def ElementPollerTicker.tick (s : ElementPollerTicker) : Bool × Nat × ElementPollerTicker :=
  match s.poller with
  | .NoWait => (false, 0, { s with attempts := s.attempts + 1 })
  | .FixedCount interval max_attempts =>
      if s.attempts < max_attempts then
        (true, interval,
          { s with attempts := s.attempts + 1, elapsed := s.elapsed + interval })
      else
        (false, 0, { s with attempts := s.attempts + 1 })
  | .TimeoutWithInterval timeout interval =>
      (decide (s.elapsed + interval ≤ timeout), interval,
        { s with attempts := s.attempts + 1, elapsed := s.elapsed + interval })

/-- State of the ticker after `n` calls to `tick`. -/
def tickStateN (s : ElementPollerTicker) : Nat → ElementPollerTicker
  | 0 => s
  | n + 1 => (tickStateN s n).tick.2.2

/-- Result of the `n`-th (0-based) call to `tick`, starting from state `s`. -/
def tickResultN (s : ElementPollerTicker) (n : Nat) : Bool :=
  (tickStateN s n).tick.1

/-- The schedule starting at ticker state `s` permits attempt number `t`
(0-based) when the first `t` calls to `tick` all return true: the loop in
`run_poller` reaches its `t`-th evaluation exactly when every earlier
iteration's tick allowed it to continue. -/
def permitsB (s : ElementPollerTicker) (t : Nat) : Bool :=
  (List.range t).all fun k => tickResultN s k

/-- An element predicate (`waiter.rs`: `ElementPredicate`), modelled as a
function from the loop-iteration (tick) index to the boolean-or-error result
the remote call produced on that iteration. -/
def ElementPredicate : Type :=
  Nat → Except WebDriverError Bool

instance : Inhabited ElementPredicate := ⟨fun _ => Except.ok true⟩

/-- Modelled from the spec: `handle_errors` lives in the repository's
`src/conditions.rs`, which is not under `src/` (it is imported by
`src/src/waiter.rs` line 1 and used at line 95).  Per the spec's
error-tolerance semantics (section 4.2), when tolerant an error from
evaluating the resource is collapsed to "predicate false"; when intolerant
it is returned unchanged. -/
def handle_errors (result : Except WebDriverError Bool) (ignore : Bool) :
    Except WebDriverError Bool :=
  match result with
  | .ok x => .ok x
  | .error e => if ignore then .ok false else .error e

/-- The `ElementWaiter` struct (`waiter.rs` lines 9-15).  The borrowed
`&WebElement` is modelled as an opaque numeric handle; it plays no role in
the loop semantics because predicate evaluation is modelled by tick index. -/
structure ElementWaiter where
  element : Nat
  poller : ElementPoller
  message : String
  ignore_errors : Bool
deriving DecidableEq

/-- `ElementWaiter::new` (`waiter.rs` lines 18-28): error tolerance starts
enabled. -/
def ElementWaiter.new (element : Nat) (poller : ElementPoller) (message : String) :
    ElementWaiter :=
  { element := element, poller := poller, message := message, ignore_errors := true }

/-- `ElementWaiter::with_poller` (`waiter.rs` lines 32-35). -/
def ElementWaiter.with_poller (w : ElementWaiter) (poller : ElementPoller) : ElementWaiter :=
  { w with poller := poller }

/-- `ElementWaiter::ignore_errors` (`waiter.rs` lines 40-43); named
`set_ignore_errors` here because the field accessor already carries the
source's name. -/
def ElementWaiter.set_ignore_errors (w : ElementWaiter) (ignore : Bool) : ElementWaiter :=
  { w with ignore_errors := ignore }

/-- `ElementWaiter::wait` (`waiter.rs` lines 48-50). -/
def ElementWaiter.wait (w : ElementWaiter) (timeout : Nat) (interval : Nat) : ElementWaiter :=
  w.with_poller (ElementPoller.TimeoutWithInterval timeout interval)

/-- One pass of the `for f in &conditions` loop inside `run_poller`
(`waiter.rs` lines 55-61) at tick `t`: an error from a predicate is
propagated by `?`; the first predicate returning false stops the pass with
`conditions_met = false`; an empty list leaves `conditions_met = true`. -/
def evalConds (conds : List ElementPredicate) (t : Nat) : Except WebDriverError Bool :=
  match conds with
  | [] => .ok true
  | f :: rest =>
    match f t with
    | .error e => .error e
    | .ok false => .ok false
    | .ok true => evalConds rest t

/-- `ElementWaiter::run_poller` (`waiter.rs` lines 52-71), with explicit fuel
bounding the number of loop iterations (`none` = fuel exhausted before the
loop returned).  `t` is the 0-based loop-iteration index fed to the
predicates; the caller starts it at 0 with a fresh ticker, mirroring
`ElementPollerTicker::new(self.poller.clone())`. -/
def ElementWaiter.run_poller (w : ElementWaiter) (conds : List ElementPredicate) :
    Nat → ElementPollerTicker → Nat → Option (Except WebDriverError Bool)
  | 0, _, _ => none
  | fuel + 1, ticker, t =>
    match evalConds conds t with
    | .error e => some (.error e)
    | .ok true => some (.ok true)
    | .ok false =>
      match ticker.tick with
      | (true, _, ticker') => w.run_poller conds fuel ticker' (t + 1)
      | (false, _, _) => some (.ok false)

/-- `ElementWaiter::timeout` (`waiter.rs` lines 73-75). -/
def ElementWaiter.timeout (w : ElementWaiter) : Except WebDriverError Unit :=
  .error (.Timeout w.message)

/-- `ElementWaiter::condition` (`waiter.rs` lines 77-82). -/
def ElementWaiter.condition (w : ElementWaiter) (f : ElementPredicate) (fuel : Nat) :
    Option (Except WebDriverError Unit) :=
  (w.run_poller [f] fuel (ElementPollerTicker.new w.poller) 0).map fun r =>
    match r with
    | .ok true => .ok ()
    | .ok false => w.timeout
    | .error e => .error e

/-- `ElementWaiter::conditions` (`waiter.rs` lines 84-89). -/
def ElementWaiter.conditions (w : ElementWaiter) (conds : List ElementPredicate) (fuel : Nat) :
    Option (Except WebDriverError Unit) :=
  (w.run_poller conds fuel (ElementPollerTicker.new w.poller) 0).map fun r =>
    match r with
    | .ok true => .ok ()
    | .ok false => w.timeout
    | .error e => .error e

/-- `ElementWaitable::wait_until` (`waiter.rs` lines 338-348): the session
configuration's "ElementPoller" entry is modelled as an `Option
ElementPoller`; `unwrap_or(ElementPoller::NoWait)` is `Option.getD`. -/
def wait_until (cfg : Option ElementPoller) (element : Nat) (timeout_message : String) :
    ElementWaiter :=
  ElementWaiter.new element (cfg.getD ElementPoller.NoWait) timeout_message

/-- Instrumented variant of one pass of the predicate loop: additionally
returns, in evaluation order, the (tick, predicate-index) pairs for the
predicates that were actually evaluated during the pass; `i` is the index of
the first predicate of `conds` within the full list. -/
def evalCondsT (conds : List ElementPredicate) (t : Nat) (i : Nat) :
    Except WebDriverError Bool × List (Nat × Nat) :=
  match conds with
  | [] => (.ok true, [])
  | f :: rest =>
    match f t with
    | .error e => (.error e, [(t, i)])
    | .ok false => (.ok false, [(t, i)])
    | .ok true =>
      let r := evalCondsT rest t (i + 1)
      (r.1, (t, i) :: r.2)

/-- Instrumented variant of `run_poller`: additionally returns the evaluation
trace (appended to the accumulator `acc`) and the final ticker state, whose
`attempts` field counts the `tick` calls made and whose `elapsed` field is the
total time slept, when started from a fresh ticker. -/
def runPollerT (conds : List ElementPredicate) :
    Nat → ElementPollerTicker → Nat → List (Nat × Nat) →
    Option (Except WebDriverError Bool × List (Nat × Nat) × ElementPollerTicker)
  | 0, _, _, _ => none
  | fuel + 1, ticker, t, acc =>
    match evalCondsT conds t 0 with
    | (.error e, tr) => some (.error e, acc ++ tr, ticker)
    | (.ok true, tr) => some (.ok true, acc ++ tr, ticker)
    | (.ok false, tr) =>
      match ticker.tick with
      | (true, _, ticker') => runPollerT conds fuel ticker' (t + 1) (acc ++ tr)
      | (false, _, ticker') => some (.ok false, acc ++ tr, ticker')

/-- Number of predicates of `conds` evaluated during one pass at tick `t`:
all of them when every one returns `ok true`, otherwise everything up to and
including the first predicate returning false or an error. -/
def numEval (conds : List ElementPredicate) (t : Nat) : Nat :=
  match conds with
  | [] => 0
  | f :: rest =>
    match f t with
    | .ok true => numEval rest t + 1
    | _ => 1

lemma evalCondsT_fst (conds : List ElementPredicate) (t i : Nat) :
    (evalCondsT conds t i).1 = evalConds conds t := by
  induction conds generalizing i with
  | nil => rfl
  | cons f rest ih =>
    simp only [evalCondsT, evalConds]
    rcases hf : f t with e | b
    · rfl
    · cases b
      · rfl
      · exact ih (i + 1)

lemma evalCondsT_trace (conds : List ElementPredicate) (t i : Nat) :
    (evalCondsT conds t i).2 = (List.range (numEval conds t)).map fun k => (t, i + k) := by
  induction conds generalizing i with
  | nil => rfl
  | cons f rest ih =>
    simp only [evalCondsT, numEval]
    have h1 : List.range 1 = [0] := rfl
    rcases hf : f t with e | b
    · simp [h1]
    · cases b
      · simp [h1]
      · simp only []
        rw [List.range_succ_eq_map]
        simp only [List.map_cons, List.map_map, ih (i + 1), Nat.add_zero, List.cons.injEq,
          true_and]
        apply List.map_congr_left
        intro k _
        have hk : i + 1 + k = i + (k + 1) := by omega
        simp [Function.comp, hk]

lemma numEval_prefix_true (conds : List ElementPredicate) (t i : Nat)
    (h : i + 1 < numEval conds t) :
    ∃ p, conds.get? i = some p ∧ p t = Except.ok true := by
  induction conds generalizing i with
  | nil => simp [numEval] at h
  | cons f rest ih =>
    rcases hf : f t with e | b
    · simp [numEval, hf] at h
    · cases b
      · simp [numEval, hf] at h
      · cases i with
        | zero => exact ⟨f, rfl, hf⟩
        | succ j =>
          simp only [numEval, hf] at h
          obtain ⟨p, hp, hpt⟩ := ih j (by omega)
          exact ⟨p, by simpa using hp, hpt⟩

lemma tick_poller (s : ElementPollerTicker) : s.tick.2.2.poller = s.poller := by
  rcases s with ⟨pol, att, el⟩
  cases pol with
  | NoWait => rfl
  | FixedCount i m =>
    simp only [ElementPollerTicker.tick]
    split <;> rfl
  | TimeoutWithInterval timeout interval => rfl

lemma tick_stop_mono (u : ElementPollerTicker) (h : u.tick.1 = false) :
    u.tick.2.2.tick.1 = false := by
  rcases u with ⟨pol, att, el⟩
  cases pol with
  | NoWait => rfl
  | FixedCount i m =>
    by_cases hc : att < m
    · simp [ElementPollerTicker.tick, hc] at h
    · have h2 : ¬ att + 1 < m := by omega
      simp [ElementPollerTicker.tick, hc, h2]
  | TimeoutWithInterval timeout interval =>
    simp only [ElementPollerTicker.tick, decide_eq_false_iff_not] at h ⊢
    omega

lemma run_poller_eq_runPollerT (w : ElementWaiter) (conds : List ElementPredicate) :
    ∀ (fuel : Nat) (s : ElementPollerTicker) (t : Nat) (acc : List (Nat × Nat)),
      w.run_poller conds fuel s t = (runPollerT conds fuel s t acc).map fun x => x.1 := by
  intro fuel
  induction fuel with
  | zero => intro s t acc; rfl
  | succ k ih =>
    intro s t acc
    have hfst := evalCondsT_fst conds t 0
    rcases hpass : evalCondsT conds t 0 with ⟨res, ptr⟩
    rw [hpass] at hfst
    rcases res with e | b
    · simp [ElementWaiter.run_poller, runPollerT, hpass, ← hfst]
    · cases b
      · rcases htick : s.tick with ⟨b2, d, s2⟩
        cases b2
        · simp [ElementWaiter.run_poller, runPollerT, hpass, ← hfst, htick]
        · simp only [ElementWaiter.run_poller, runPollerT, hpass, ← hfst, htick]
          exact ih s2 (t + 1) (acc ++ ptr)
      · simp [ElementWaiter.run_poller, runPollerT, hpass, ← hfst]

lemma mem_passTrace (conds : List ElementPredicate) (a t j : Nat) :
    (t, j) ∈ (evalCondsT conds a 0).2 ↔ t = a ∧ j < numEval conds a := by
  rw [evalCondsT_trace]
  constructor
  · intro h
    rcases List.mem_map.mp h with ⟨k, hk, heq⟩
    injection heq with h1 h2
    exact ⟨h1.symm, by have := List.mem_range.mp hk; omega⟩
  · rintro ⟨rfl, hj⟩
    exact List.mem_map.mpr ⟨j, List.mem_range.mpr hj, by simp⟩

lemma runPollerT_trace_mem (conds : List ElementPredicate) :
    ∀ (fuel : Nat) (s : ElementPollerTicker) (a : Nat) (acc : List (Nat × Nat))
      (r : Except WebDriverError Bool) (tr : List (Nat × Nat)) (s2 : ElementPollerTicker),
      runPollerT conds fuel s a acc = some (r, tr, s2) →
      ∃ rest, tr = acc ++ rest ∧
        ∀ t j, (t, j) ∈ rest → j < numEval conds t ∧ ∀ i, i ≤ j → (t, i) ∈ rest := by
  intro fuel
  induction fuel with
  | zero => intro s a acc r tr s2 h; simp [runPollerT] at h
  | succ k ih =>
    intro s a acc r tr s2 h
    rcases hpass : evalCondsT conds a 0 with ⟨res, ptr⟩
    have hptr : ∀ t j, (t, j) ∈ ptr ↔ t = a ∧ j < numEval conds a := by
      intro t j
      have := mem_passTrace conds a t j
      rwa [hpass] at this
    have hpr : ∀ t j, (t, j) ∈ ptr →
        j < numEval conds t ∧ ∀ i, i ≤ j → (t, i) ∈ ptr := by
      intro t j hj
      rcases (hptr t j).mp hj with ⟨rfl, hlt⟩
      exact ⟨hlt, fun i hi => (hptr t i).mpr ⟨rfl, by omega⟩⟩
    rcases res with e | b
    · simp only [runPollerT, hpass, Option.some.injEq, Prod.mk.injEq] at h
      exact ⟨ptr, h.2.1.symm, hpr⟩
    · cases b
      · rcases htick : s.tick with ⟨b2, d, s3⟩
        cases b2
        · simp only [runPollerT, hpass, htick, Option.some.injEq, Prod.mk.injEq] at h
          exact ⟨ptr, h.2.1.symm, hpr⟩
        · simp only [runPollerT, hpass, htick] at h
          rcases ih s3 (a + 1) (acc ++ ptr) r tr s2 h with ⟨rest2, htr, hrest⟩
          refine ⟨ptr ++ rest2, by rw [htr, List.append_assoc], ?_⟩
          intro t j hj
          rcases List.mem_append.mp hj with hl | hr
          · rcases hpr t j hl with ⟨h1, h2⟩
            exact ⟨h1, fun i hi => List.mem_append.mpr (Or.inl (h2 i hi))⟩
          · rcases hrest t j hr with ⟨h1, h2⟩
            exact ⟨h1, fun i hi => List.mem_append.mpr (Or.inr (h2 i hi))⟩
      · simp only [runPollerT, hpass, Option.some.injEq, Prod.mk.injEq] at h
        exact ⟨ptr, h.2.1.symm, hpr⟩

lemma runPollerT_first_pass (conds : List ElementPredicate) (fuel : Nat)
    (s : ElementPollerTicker) (a : Nat) (acc : List (Nat × Nat))
    (r : Except WebDriverError Bool) (tr : List (Nat × Nat)) (s2 : ElementPollerTicker)
    (h : runPollerT conds fuel s a acc = some (r, tr, s2)) :
    List.IsPrefix (acc ++ (evalCondsT conds a 0).2) tr ∧
    ((evalCondsT conds a 0).1 ≠ Except.ok false →
      r = (evalCondsT conds a 0).1 ∧ tr = acc ++ (evalCondsT conds a 0).2 ∧ s2 = s) := by
  cases fuel with
  | zero => simp [runPollerT] at h
  | succ k =>
    rcases hpass : evalCondsT conds a 0 with ⟨res, ptr⟩
    rcases res with e | b
    · simp only [runPollerT, hpass, Option.some.injEq, Prod.mk.injEq] at h
      refine ⟨⟨[], by simp [h.2.1]⟩, fun _ => ⟨h.1.symm, h.2.1.symm, h.2.2.symm⟩⟩
    · cases b
      · rcases htick : s.tick with ⟨b2, d, s3⟩
        cases b2
        · simp only [runPollerT, hpass, htick, Option.some.injEq, Prod.mk.injEq] at h
          exact ⟨⟨[], by simp [h.2.1]⟩, fun hne => absurd rfl hne⟩
        · simp only [runPollerT, hpass, htick] at h
          rcases runPollerT_trace_mem conds k s3 (a + 1) (acc ++ ptr) r tr s2 h with
            ⟨rest2, htr, _⟩
          exact ⟨⟨rest2, htr.symm⟩, fun hne => absurd rfl hne⟩
      · simp only [runPollerT, hpass, Option.some.injEq, Prod.mk.injEq] at h
        refine ⟨⟨[], by simp [h.2.1]⟩, fun _ => ⟨h.1.symm, h.2.1.symm, h.2.2.symm⟩⟩

lemma runPollerT_noWait (conds : List ElementPredicate) (fuel : Nat)
    (s : ElementPollerTicker) (a : Nat) (acc : List (Nat × Nat))
    (hpol : s.poller = ElementPoller.NoWait) (hf : 1 ≤ fuel) :
    ∃ s2, runPollerT conds fuel s a acc
        = some ((evalCondsT conds a 0).1, acc ++ (evalCondsT conds a 0).2, s2) ∧
      s2.elapsed = s.elapsed ∧ s2.poller = s.poller := by
  obtain ⟨k, rfl⟩ : ∃ k, fuel = k + 1 := ⟨fuel - 1, by omega⟩
  have htick : s.tick = (false, 0, { s with attempts := s.attempts + 1 }) := by
    simp [ElementPollerTicker.tick, hpol]
  rcases hpass : evalCondsT conds a 0 with ⟨res, ptr⟩
  rcases res with e | b
  · exact ⟨s, by simp [runPollerT, hpass], rfl, rfl⟩
  · cases b
    · exact ⟨{ s with attempts := s.attempts + 1 }, by simp [runPollerT, hpass, htick], rfl, rfl⟩
    · exact ⟨s, by simp [runPollerT, hpass], rfl, rfl⟩

lemma permitsB_of_lt (s0 : ElementPollerTicker) (a : Nat)
    (hinv : ∀ k, k < a → tickResultN s0 k = true) : permitsB s0 a = true := by
  rw [permitsB, List.all_eq_true]
  intro k hk
  exact hinv k (List.mem_range.mp hk)

lemma run_poller_pure (w : ElementWaiter) (p : Nat → Bool) (s0 : ElementPollerTicker) :
    ∀ (fuel a : Nat) (r : Except WebDriverError Bool),
      (∀ k, k < a → tickResultN s0 k = true) →
      (∀ u, u < a → p u = false) →
      w.run_poller [fun t => Except.ok (p t)] fuel (tickStateN s0 a) a = some r →
      (r = Except.ok true ∧ ∃ t, permitsB s0 t = true ∧ p t = true) ∨
      (r = Except.ok false ∧ ∀ t, permitsB s0 t = true → p t = false) := by
  intro fuel
  induction fuel with
  | zero => intro a r _ _ h; simp [ElementWaiter.run_poller] at h
  | succ k ih =>
    intro a r hticks hfalse h
    by_cases hpa : p a
    · have hev : evalConds [fun t => Except.ok (p t)] a = Except.ok true := by
        simp [evalConds, hpa]
      simp only [ElementWaiter.run_poller, hev, Option.some.injEq] at h
      exact Or.inl ⟨h.symm, a, permitsB_of_lt s0 a hticks, hpa⟩
    · have hpa2 : p a = false := by simpa using hpa
      have hev : evalConds [fun t => Except.ok (p t)] a = Except.ok false := by
        simp [evalConds, hpa2]
      rcases htick : (tickStateN s0 a).tick with ⟨b, d, s3⟩
      have hres : tickResultN s0 a = b := by
        simp [tickResultN, htick]
      cases b
      · simp only [ElementWaiter.run_poller, hev, htick, Option.some.injEq] at h
        refine Or.inr ⟨h.symm, fun t hp => ?_⟩
        rcases Nat.lt_trichotomy t a with hlt | rfl | hgt
        · exact hfalse t hlt
        · exact hpa2
        · exfalso
          have : tickResultN s0 a = true := by
            have := List.all_eq_true.mp hp
            exact this a (List.mem_range.mpr hgt)
          rw [hres] at this
          exact Bool.false_ne_true this
      · have hs3 : tickStateN s0 (a + 1) = s3 := by
          simp [tickStateN, htick]
        simp only [ElementWaiter.run_poller, hev, htick] at h
        rw [← hs3] at h
        refine ih (a + 1) r ?_ ?_ h
        · intro k2 hk2
          rcases Nat.lt_or_ge k2 a with hlt | hge
          · exact hticks k2 hlt
          · have : k2 = a := by omega
            rw [this, hres]
        · intro u hu
          rcases Nat.lt_or_ge u a with hlt | hge
          · exact hfalse u hlt
          · have : u = a := by omega
            rw [this]; exact hpa2

lemma evalConds_singleton (f : ElementPredicate) (t : Nat) : evalConds [f] t = f t := by
  rcases hf : f t with e | b
  · simp [evalConds, hf]
  · cases b <;> simp [evalConds, hf]

lemma run_poller_unfold_cont (w : ElementWaiter) (conds : List ElementPredicate) (k : Nat)
    (s s2 : ElementPollerTicker) (t d : Nat)
    (hev : evalConds conds t = Except.ok false) (htk : s.tick = (true, d, s2)) :
    w.run_poller conds (k + 1) s t = w.run_poller conds k s2 (t + 1) := by
  simp [ElementWaiter.run_poller, hev, htk]

lemma run_poller_unfold_done (w : ElementWaiter) (conds : List ElementPredicate) (k : Nat)
    (s : ElementPollerTicker) (t : Nat) (hev : evalConds conds t = Except.ok true) :
    w.run_poller conds (k + 1) s t = some (Except.ok true) := by
  simp [ElementWaiter.run_poller, hev]

/-- C7: for every polling strategy, `tick` is monotonic: once a call to
`tick` returns false (stop), every subsequent call on the same ticker also
returns false — the schedule never resets. -/
theorem claim_c7 (s : ElementPollerTicker) (m n : Nat) (hmn : m ≤ n)
    (hstop : tickResultN s m = false) : tickResultN s n = false := by
  induction n, hmn using Nat.le_induction with
  | base => exact hstop
  | succ n hn ih => exact tick_stop_mono (tickStateN s n) ih

theorem claim_c7_witness :
    (0 : Nat) ≤ 1 ∧
    tickResultN (ElementPollerTicker.new ElementPoller.NoWait) 0 = false ∧
    tickResultN (ElementPollerTicker.new ElementPoller.NoWait) 1 = false :=
  ⟨by decide, by decide,
    claim_c7 (ElementPollerTicker.new ElementPoller.NoWait) 0 1 (by decide) (by decide)⟩

/-- C8: every waiter produced by `wait_until` (or directly by
`ElementWaiter::new`) has error tolerance enabled by default: the
`ignore_errors` flag of a freshly constructed waiter is `true`. -/
theorem claim_c8 (cfg : Option ElementPoller) (element : Nat) (poller : ElementPoller)
    (msg : String) :
    (wait_until cfg element msg).ignore_errors = true ∧
    (ElementWaiter.new element poller msg).ignore_errors = true :=
  ⟨rfl, rfl⟩

/-- C9: for every waiter and every pair of durations, `wait(timeout,
interval)` produces exactly the same waiter as
`with_poller(TimeoutWithInterval(timeout, interval))`: the strategy is
overridden and every other field is untouched. -/
theorem claim_c9 (w : ElementWaiter) (timeout interval : Nat) :
    w.wait timeout interval
      = w.with_poller (ElementPoller.TimeoutWithInterval timeout interval) ∧
    (w.wait timeout interval).poller = ElementPoller.TimeoutWithInterval timeout interval ∧
    (w.wait timeout interval).element = w.element ∧
    (w.wait timeout interval).message = w.message ∧
    (w.wait timeout interval).ignore_errors = w.ignore_errors :=
  ⟨rfl, rfl, rfl, rfl, rfl⟩

/-- Concrete waiter for the C2 counterexample (NoWait strategy, message
"m"). -/
def wC2 : ElementWaiter := ElementWaiter.new 0 ElementPoller.NoWait "m"

/-- C2 counterexample: calling `conditions` with an empty predicate list does
NOT fail fast with an error as the claim states; it returns `Ok(())`
immediately (the `for` loop leaves `conditions_met = true` vacuously). -/
theorem claim_c2_counterexample :
    wC2.conditions [] 1 = some (Except.ok ()) ∧
    wC2.conditions [] 1 ≠ some (Except.error (WebDriverError.Timeout "m")) :=
  ⟨by decide, by decide⟩

/-- C2 amended: calling `conditions` with an empty predicate list returns
success immediately — before the ticker is ever consulted and with an empty
evaluation trace — rather than an error. -/
theorem claim_c2_amended (w : ElementWaiter) (fuel : Nat) (hf : 1 ≤ fuel) :
    runPollerT [] fuel (ElementPollerTicker.new w.poller) 0 []
      = some (Except.ok true, [], ElementPollerTicker.new w.poller) ∧
    w.conditions [] fuel = some (Except.ok ()) := by
  obtain ⟨k, rfl⟩ : ∃ k, fuel = k + 1 := ⟨fuel - 1, by omega⟩
  constructor
  · simp [runPollerT, evalCondsT]
  · simp [ElementWaiter.conditions, ElementWaiter.run_poller, evalConds]

theorem claim_c2_amended_witness :
    (1 : Nat) ≤ 1 ∧
    (runPollerT [] 1 (ElementPollerTicker.new wC2.poller) 0 []
        = some (Except.ok true, [], ElementPollerTicker.new wC2.poller) ∧
      wC2.conditions [] 1 = some (Except.ok ())) :=
  ⟨by decide, claim_c2_amended wC2 1 (by decide)⟩

/-- C5: for a waiter with error tolerance disabled, the first error returned
by a predicate is returned to the caller immediately: the evaluation trace
contains only that single evaluation, the ticker is never consulted (the
final ticker state is still the fresh one), and the returned error is the
predicate's error, not a Timeout. -/
theorem claim_c5 (w : ElementWaiter) (p : ElementPredicate) (e : WebDriverError)
    (fuel : Nat) (hw : w.ignore_errors = false) (hp : p 0 = Except.error e)
    (hf : 1 ≤ fuel) :
    runPollerT [p] fuel (ElementPollerTicker.new w.poller) 0 []
      = some (Except.error e, [(0, 0)], ElementPollerTicker.new w.poller) ∧
    w.condition p fuel = some (Except.error e) := by
  obtain ⟨k, rfl⟩ : ∃ k, fuel = k + 1 := ⟨fuel - 1, by omega⟩
  have hpass : evalCondsT [p] 0 0 = (Except.error e, [(0, 0)]) := by
    simp [evalCondsT, hp]
  have hev : evalConds [p] 0 = Except.error e := by simp [evalConds, hp]
  constructor
  · simp [runPollerT, hpass]
  · simp [ElementWaiter.condition, ElementWaiter.run_poller, hev]

theorem claim_c5_witness :
    ((ElementWaiter.new 0 ElementPoller.NoWait "m").set_ignore_errors false).ignore_errors
        = false ∧
    runPollerT [fun _ => Except.error (WebDriverError.OtherError 5)] 1
        (ElementPollerTicker.new ElementPoller.NoWait) 0 []
      = some (Except.error (WebDriverError.OtherError 5), [(0, 0)],
          ElementPollerTicker.new ElementPoller.NoWait) ∧
    ((ElementWaiter.new 0 ElementPoller.NoWait "m").set_ignore_errors false).condition
        (fun _ => Except.error (WebDriverError.OtherError 5)) 1
      = some (Except.error (WebDriverError.OtherError 5)) := by
  refine ⟨by decide, ?_⟩
  exact claim_c5 ((ElementWaiter.new 0 ElementPoller.NoWait "m").set_ignore_errors false)
    (fun _ => Except.error (WebDriverError.OtherError 5)) (WebDriverError.OtherError 5) 1
    (by decide) rfl (by decide)

/-- C3: for every predicate that never errors, `condition` can only end in
one of two ways: `Ok(())`, in which case the predicate returned true on some
attempt permitted by the schedule, or a Timeout error carrying exactly the
message the waiter was constructed with, in which case the predicate was
false on every attempt the schedule permits. -/
theorem claim_c3 (w : ElementWaiter) (p : Nat → Bool) (fuel : Nat)
    (r : Except WebDriverError Unit)
    (h : w.condition (fun t => Except.ok (p t)) fuel = some r) :
    (r = Except.ok () ∧
      ∃ t, permitsB (ElementPollerTicker.new w.poller) t = true ∧ p t = true) ∨
    (r = Except.error (WebDriverError.Timeout w.message) ∧
      ∀ t, permitsB (ElementPollerTicker.new w.poller) t = true → p t = false) := by
  rcases hrun : w.run_poller [fun t => Except.ok (p t)] fuel
      (ElementPollerTicker.new w.poller) 0 with _ | r0
  · rw [ElementWaiter.condition, hrun] at h
    simp at h
  · have hchar := run_poller_pure w p (ElementPollerTicker.new w.poller) fuel 0 r0
      (fun k hk => absurd hk (Nat.not_lt_zero k))
      (fun u hu => absurd hu (Nat.not_lt_zero u)) hrun
    rw [ElementWaiter.condition, hrun] at h
    simp only [Option.map_some', Option.some.injEq] at h
    rcases hchar with ⟨rfl, t, hperm, hpt⟩ | ⟨rfl, hall⟩
    · exact Or.inl ⟨h.symm, t, hperm, hpt⟩
    · exact Or.inr ⟨h.symm, hall⟩

theorem claim_c3_witness :
    ((Except.ok () : Except WebDriverError Unit) = Except.ok () ∧
      ∃ t, permitsB (ElementPollerTicker.new ElementPoller.NoWait) t = true ∧ true = true) ∨
    ((Except.ok () : Except WebDriverError Unit)
        = Except.error (WebDriverError.Timeout "m") ∧
      ∀ t, permitsB (ElementPollerTicker.new ElementPoller.NoWait) t = true →
        true = false) :=
  claim_c3 (ElementWaiter.new 0 ElementPoller.NoWait "m") (fun _ => true) 1
    (Except.ok ()) (by decide)

/-- C4: in every completed run of the polling loop, the predicates evaluated
on a single tick are exactly an initial segment of the list, in listed order
(the single-tick trace is `[(t,0), (t,1), ...]`), and whenever a later
predicate was evaluated on some tick, every earlier predicate was evaluated
on that same tick and returned true — a later predicate is never evaluated on
a tick where an earlier one returned false. -/
theorem claim_c4 (conds : List ElementPredicate) (fuel : Nat) (s : ElementPollerTicker)
    (r : Except WebDriverError Bool) (tr : List (Nat × Nat)) (s2 : ElementPollerTicker)
    (h : runPollerT conds fuel s 0 [] = some (r, tr, s2)) :
    (∀ t, (evalCondsT conds t 0).2
        = (List.range (numEval conds t)).map fun k => (t, k)) ∧
    ∀ t j, (t, j) ∈ tr → ∀ i, i < j →
      (t, i) ∈ tr ∧ ∃ p, conds.get? i = some p ∧ p t = Except.ok true := by
  constructor
  · intro t
    rw [evalCondsT_trace]
    exact List.map_congr_left fun k _ => by simp
  · rcases runPollerT_trace_mem conds fuel s 0 [] r tr s2 h with ⟨rest, htr, hprop⟩
    simp only [List.nil_append] at htr
    subst htr
    intro t j hj i hij
    rcases hprop t j hj with ⟨hlt, hmem⟩
    exact ⟨hmem i (Nat.le_of_lt hij),
      numEval_prefix_true conds t i (by omega)⟩

/-- Concrete predicate list for the C4 witness: the first predicate is always
true, the second always false. -/
def condsC4 : List ElementPredicate := [fun _ => Except.ok true, fun _ => Except.ok false]

theorem claim_c4_witness :
    (∀ t, (evalCondsT condsC4 t 0).2
        = (List.range (numEval condsC4 t)).map fun k => (t, k)) ∧
    ∀ t j, (t, j) ∈ [(0, 0), (0, 1)] → ∀ i, i < j →
      (t, i) ∈ [(0, 0), (0, 1)] ∧
      ∃ p, condsC4.get? i = some p ∧ p t = Except.ok true :=
  claim_c4 condsC4 1
    (ElementPollerTicker.new ElementPoller.NoWait) (Except.ok false) [(0, 0), (0, 1)]
    ⟨ElementPoller.NoWait, 1, 0⟩ (by decide)

/-- C6: in every completed run of the polling loop, one full evaluation pass
happens before the ticker is consulted: the first pass's trace is a prefix of
the run's trace, and when the first pass is decisive (all-true or error) the
ticker state is still the fresh one.  Under the NoWait strategy the run
consists of exactly the first evaluation pass, with zero total delay,
regardless of the predicate outcome. -/
theorem claim_c6 (conds : List ElementPredicate) (fuel : Nat) (poller : ElementPoller)
    (r : Except WebDriverError Bool) (tr : List (Nat × Nat)) (s2 : ElementPollerTicker)
    (h : runPollerT conds fuel (ElementPollerTicker.new poller) 0 [] = some (r, tr, s2)) :
    List.IsPrefix (evalCondsT conds 0 0).2 tr ∧
    ((evalCondsT conds 0 0).1 ≠ Except.ok false →
      r = (evalCondsT conds 0 0).1 ∧ tr = (evalCondsT conds 0 0).2 ∧
      s2 = ElementPollerTicker.new poller) ∧
    (poller = ElementPoller.NoWait →
      r = (evalCondsT conds 0 0).1 ∧ tr = (evalCondsT conds 0 0).2 ∧ s2.elapsed = 0) := by
  have hfp := runPollerT_first_pass conds fuel (ElementPollerTicker.new poller) 0 [] r tr s2 h
  refine ⟨by simpa using hfp.1, fun hne => ?_, fun hpol => ?_⟩
  · have h2 := hfp.2 hne
    exact ⟨h2.1, by simpa using h2.2.1, h2.2.2⟩
  · subst hpol
    have hf1 : 1 ≤ fuel := by
      cases fuel
      · simp [runPollerT] at h
      · omega
    rcases runPollerT_noWait conds fuel (ElementPollerTicker.new ElementPoller.NoWait) 0 []
      rfl hf1 with ⟨s3, hrun, hel, _⟩
    have heq := h.symm.trans hrun
    simp only [Option.some.injEq, Prod.mk.injEq, List.nil_append] at heq
    obtain ⟨hr, htr2, hs⟩ := heq
    exact ⟨hr, htr2, by rw [hs]; exact hel⟩

theorem claim_c6_witness :
    List.IsPrefix (evalCondsT [fun _ => Except.ok true] 0 0).2 [(0, 0)] ∧
    ((evalCondsT [fun _ => Except.ok true] 0 0).1 ≠ Except.ok false →
      Except.ok true = (evalCondsT [fun _ => Except.ok true] 0 0).1 ∧
      [(0, 0)] = (evalCondsT [fun _ => Except.ok true] 0 0).2 ∧
      ElementPollerTicker.new ElementPoller.NoWait
        = ElementPollerTicker.new ElementPoller.NoWait) ∧
    (ElementPoller.NoWait = ElementPoller.NoWait →
      Except.ok true = (evalCondsT [fun _ => Except.ok true] 0 0).1 ∧
      [(0, 0)] = (evalCondsT [fun _ => Except.ok true] 0 0).2 ∧
      (ElementPollerTicker.new ElementPoller.NoWait).elapsed = 0) :=
  claim_c6 [fun _ => Except.ok true] 1 ElementPoller.NoWait (Except.ok true) [(0, 0)]
    (ElementPollerTicker.new ElementPoller.NoWait) (by decide)

/-- C10: when the session configuration has no "ElementPoller" entry,
`wait_until` constructs the waiter with the NoWait strategy, and any
completed run of the polling loop for such a waiter consists of a single
evaluation pass with zero delay: the result is the first pass's result and
the trace is the first pass's trace. -/
theorem claim_c10 (element : Nat) (msg : String) (conds : List ElementPredicate)
    (fuel : Nat) (r : Except WebDriverError Bool) (tr : List (Nat × Nat))
    (s2 : ElementPollerTicker)
    (h : runPollerT conds fuel
        (ElementPollerTicker.new (wait_until none element msg).poller) 0 []
      = some (r, tr, s2)) :
    (wait_until none element msg).poller = ElementPoller.NoWait ∧
    r = evalConds conds 0 ∧ tr = (evalCondsT conds 0 0).2 ∧ s2.elapsed = 0 := by
  have hpol : (wait_until none element msg).poller = ElementPoller.NoWait := rfl
  rw [hpol] at h
  have hf1 : 1 ≤ fuel := by
    cases fuel
    · simp [runPollerT] at h
    · omega
  rcases runPollerT_noWait conds fuel (ElementPollerTicker.new ElementPoller.NoWait) 0 []
    rfl hf1 with ⟨s3, hrun, hel, _⟩
  have heq := h.symm.trans hrun
  simp only [Option.some.injEq, Prod.mk.injEq, List.nil_append] at heq
  obtain ⟨hr, htr2, hs⟩ := heq
  refine ⟨hpol, ?_, htr2, by rw [hs]; exact hel⟩
  rw [hr, evalCondsT_fst]

theorem claim_c10_witness :
    (wait_until none 0 "").poller = ElementPoller.NoWait ∧
    (Except.ok true : Except WebDriverError Bool) = evalConds [] 0 ∧
    ([] : List (Nat × Nat)) = (evalCondsT [] 0 0).2 ∧
    (ElementPollerTicker.new ElementPoller.NoWait).elapsed = 0 :=
  claim_c10 0 "" [] 1 (Except.ok true) [] (ElementPollerTicker.new ElementPoller.NoWait)
    (by decide)

/-- Concrete waiter for the C1 counterexample: freshly constructed (so error
tolerance is on, the default) with a generous 5-retry schedule. -/
def wC1 : ElementWaiter := ElementWaiter.new 0 (ElementPoller.FixedCount 1 5) "msg"

/-- Concrete raw predicate for the C1 counterexample: errors on attempts 1
and 2 (tick indices 0 and 1) and returns true on attempt 3 (tick index 2). -/
def pC1 : ElementPredicate := fun t =>
  if t < 2 then Except.error (WebDriverError.OtherError 7) else Except.ok true

/-- C1 counterexample: with error tolerance enabled (the default), a raw
predicate passed to `condition` that errors on attempts 1 and 2 and returns
true on attempt 3 does NOT yield overall success as the claim states: the
`?` in `run_poller` propagates the very first error, terminating the wait. -/
theorem claim_c1_counterexample :
    wC1.ignore_errors = true ∧
    wC1.condition pC1 10 = some (Except.error (WebDriverError.OtherError 7)) ∧
    wC1.condition pC1 10 ≠ some (Except.ok ()) :=
  ⟨rfl, by decide, by decide⟩

/-- C1 amended: error tolerance is applied inside the predicate, not by the
polling loop: every built-in condition wraps its remote call with
`handle_errors`, which collapses errors to "predicate false" when tolerant.
For a waiter with error tolerance enabled, a `handle_errors`-wrapped
predicate whose underlying evaluation errors on attempts 1 and 2 and returns
true on attempt 3 yields overall success (provided the schedule permits a
third attempt), while an unwrapped predicate's error terminates the wait
immediately. -/
theorem claim_c1_amended (w : ElementWaiter) (raw : Nat → Except WebDriverError Bool)
    (fuel : Nat) (hw : w.ignore_errors = true)
    (h0 : ∃ e, raw 0 = Except.error e) (h1 : ∃ e, raw 1 = Except.error e)
    (h2 : raw 2 = Except.ok true)
    (hperm : permitsB (ElementPollerTicker.new w.poller) 2 = true)
    (hf : 3 ≤ fuel) :
    w.condition (fun t => handle_errors (raw t) w.ignore_errors) fuel
      = some (Except.ok ()) := by
  obtain ⟨k, rfl⟩ : ∃ k, fuel = k + 1 + 1 + 1 := ⟨fuel - 3, by omega⟩
  obtain ⟨e0, he0⟩ := h0
  obtain ⟨e1, he1⟩ := h1
  have hg0 : handle_errors (raw 0) w.ignore_errors = Except.ok false := by
    rw [hw, he0]; rfl
  have hg1 : handle_errors (raw 1) w.ignore_errors = Except.ok false := by
    rw [hw, he1]; rfl
  have hg2 : handle_errors (raw 2) w.ignore_errors = Except.ok true := by
    rw [h2]; rfl
  have hall := List.all_eq_true.mp hperm
  have ht0 : tickResultN (ElementPollerTicker.new w.poller) 0 = true :=
    hall 0 (List.mem_range.mpr (by omega))
  have ht1 : tickResultN (ElementPollerTicker.new w.poller) 1 = true :=
    hall 1 (List.mem_range.mpr (by omega))
  rcases htk0 : (ElementPollerTicker.new w.poller).tick with ⟨b0, d0, s1⟩
  have hb0 : b0 = true := by
    rw [tickResultN, tickStateN, htk0] at ht0
    exact ht0
  subst hb0
  have hs1 : tickStateN (ElementPollerTicker.new w.poller) 1 = s1 := by
    simp [tickStateN, htk0]
  rcases htk1 : s1.tick with ⟨b1, d1, s2⟩
  have hb1 : b1 = true := by
    rw [tickResultN, hs1, htk1] at ht1
    exact ht1
  subst hb1
  have hev0 : evalConds [fun t => handle_errors (raw t) w.ignore_errors] 0
      = Except.ok false := by
    rw [evalConds_singleton]; exact hg0
  have hev1 : evalConds [fun t => handle_errors (raw t) w.ignore_errors] (0 + 1)
      = Except.ok false := by
    rw [evalConds_singleton]; exact hg1
  have hev2 : evalConds [fun t => handle_errors (raw t) w.ignore_errors] (0 + 1 + 1)
      = Except.ok true := by
    rw [evalConds_singleton]; exact hg2
  have hrun : w.run_poller [fun t => handle_errors (raw t) w.ignore_errors] (k + 1 + 1 + 1)
      (ElementPollerTicker.new w.poller) 0 = some (Except.ok true) := by
    rw [run_poller_unfold_cont w _ (k + 1 + 1) _ s1 0 d0 hev0 htk0,
      run_poller_unfold_cont w _ (k + 1) s1 s2 (0 + 1) d1 hev1 htk1,
      run_poller_unfold_done w _ k s2 (0 + 1 + 1) hev2]
  rw [ElementWaiter.condition, hrun]
  rfl

theorem claim_c1_amended_witness :
    (ElementWaiter.new 0 (ElementPoller.FixedCount 0 5) "m").ignore_errors = true ∧
    (ElementWaiter.new 0 (ElementPoller.FixedCount 0 5) "m").condition
        (fun t => handle_errors (pC1 t)
          (ElementWaiter.new 0 (ElementPoller.FixedCount 0 5) "m").ignore_errors) 3
      = some (Except.ok ()) :=
  ⟨rfl, claim_c1_amended (ElementWaiter.new 0 (ElementPoller.FixedCount 0 5) "m") pC1 3
    rfl ⟨WebDriverError.OtherError 7, rfl⟩ ⟨WebDriverError.OtherError 7, rfl⟩ (by decide)
    (by decide) (by decide)⟩
